import Mathlib

/-!
Verification development for the study-mood snapshot pipeline.

The system under study has two tiers that rendezvous through a persistent
collection of snapshot documents:

* a lifecycle service (`web-app/db_service.py`) that inserts snapshot
  records and projects raw records to client-facing views, and
* an analyzer worker (`machine-learning-client/mood_analyzer.py`) that
  polls for unprocessed records, decodes images, detects faces, runs an
  emotion classifier and writes terminal results back.

Documents are modelled as association lists of string keys to a small
universe of values mirroring the dynamic values the code stores: strings,
booleans, timestamps, numbers, emotion maps and null.  Python dictionary
truthiness, `dict.get`, `dict.update` and the mongo-style partial updates
the code performs are modelled explicitly.  Machine integers do not occur
in the modelled fragment; probabilities are modelled as rationals (the
code only ever compares them, never computes with them).
-/

namespace StudyMood

/-- Dynamic values stored in snapshot documents. -/
inductive BValue where
  | vstr (s : String)
  | vbool (b : Bool)
  | vdt (t : Nat)
  | vnum (q : ℚ)
  | vemap (m : List (String × ℚ))
  | vnull
  deriving DecidableEq, Repr

/-- Python truthiness of a stored value (`bool(x)`). -/
def BValue.truthy : BValue → Bool
  | .vstr s => !s.isEmpty
  | .vbool b => b
  | .vdt _ => true
  | .vnum q => decide (q ≠ 0)
  | .vemap m => !m.isEmpty
  | .vnull => false

/-- Python `str(x)`; the code only applies it to string ids, whose
rendering is the identity. -/
def BValue.pyStr : BValue → String
  | .vstr s => s
  | .vbool b => if b then "True" else "False"
  | .vdt t => "datetime-" ++ toString t
  | .vnum q => toString q
  | .vemap _ => "dict"
  | .vnull => "None"

/-- A document: insertion-ordered mapping from keys to values, as a Python
dict / BSON document. -/
abbrev Doc := List (String × BValue)

/-- Python `d.get(k)` / `k in d`: the value at the first occurrence of a
key. -/
def Doc.get? (d : Doc) (k : String) : Option BValue :=
  match d with
  | [] => none
  | (k2, v) :: rest => if k2 = k then some v else Doc.get? rest k

/-- Python `d[k] = v`: replace the value at an existing key in place,
otherwise append the key at the end (dict insertion-order semantics). -/
def Doc.set (d : Doc) (k : String) (v : BValue) : Doc :=
  match d with
  | [] => [(k, v)]
  | (k2, v2) :: rest =>
      if k2 = k then (k2, v) :: rest else (k2, v2) :: Doc.set rest k v

/-- Python `d.update(m)`: assign each entry of `m` in order. -/
def Doc.updateWith (d : Doc) (m : Doc) : Doc :=
  m.foldl (fun acc p => acc.set p.1 p.2) d

/-- ISO-8601 rendering of a (modelled) timestamp; injective in the tick. -/
def isoformat (t : Nat) : String := "iso-" ++ toString t

/-- Whether a character is a hexadecimal digit. -/
def isHexChar (c : Char) : Bool :=
  c.isDigit || (('a' ≤ c && c ≤ 'f') || ('A' ≤ c && c ≤ 'F'))

/-- `ObjectId(s)` succeeds exactly on 24-character hexadecimal strings;
`get_snapshot_by_id_raw` wraps the constructor in try/except. -/
def isValidObjectId (s : String) : Bool :=
  s.length == 24 && s.toList.all isHexChar

/-- `find_one` by id: the first document whose `_id` field equals the
given id value. -/
def findOne (col : List Doc) (oid : BValue) : Option Doc :=
  col.find? (fun d => d.get? "_id" == some oid)

/-- `get_snapshot_by_id_raw`: parse the id (malformed ids yield `none` via
the try/except), then look the document up. -/
def get_snapshot_by_id_raw (col : List Doc) (snapshot_id : String) :
    Option Doc :=
  if isValidObjectId snapshot_id then findOne col (.vstr snapshot_id)
  else none

/-- `bool(doc.get("processed", False))`. -/
def docProcessed (d : Doc) : Bool :=
  ((d.get? "processed").getD (.vbool false)).truthy

/-- `doc.get("error") is not None`: the `error` field is present with a
non-null value. -/
def docErrSet (d : Doc) : Bool :=
  match d.get? "error" with
  | some v => decide (v ≠ .vnull)
  | none => false

/-- The derived status: pending unless processed; then error wins over
done. -/
def statusOf (d : Doc) : String :=
  if docProcessed d = false then "pending"
  else if docErrSet d then "error" else "done"

/-- An optional singleton entry of the view. -/
def optEntry (k : String) (v : Option BValue) : Doc :=
  match v with
  | some x => [(k, x)]
  | none => []

/-- Render a raw timestamp field for the view when it is a datetime
(`isinstance(x, datetime)` guard in the code). -/
def isoOf : Option BValue → Option BValue
  | some (.vdt t) => some (.vstr (isoformat t))
  | _ => none

/-- Pass the raw `error` value through when it is non-null. -/
def errOf : Option BValue → Option BValue
  | some v => if v = .vnull then none else some v
  | none => none

/-- The client-facing projection built by `get_snapshot_view` from a found
raw document, keys in the code's insertion order. -/
def viewOfDoc (d : Doc) : Doc :=
  ([("id", .vstr (((d.get? "_id").getD .vnull).pyStr)),
    ("processed", .vbool (docProcessed d))] : Doc)
  ++ optEntry "created_at" (isoOf (d.get? "created_at"))
  ++ optEntry "processed_at" (isoOf (d.get? "processed_at"))
  ++ optEntry "mood" (d.get? "mood")
  ++ optEntry "emotions" (d.get? "emotions")
  ++ optEntry "face_detected" (d.get? "face_detected")
  ++ optEntry "error" (errOf (d.get? "error"))
  ++ ([("status", .vstr (statusOf d))] : Doc)

/-- `get_snapshot_view`: fetch the raw record (`none` when the id is
malformed or the record is absent or empty) and project it. -/
def get_snapshot_view (col : List Doc) (snapshot_id : String) :
    Option Doc :=
  match get_snapshot_by_id_raw col snapshot_id with
  | none => none
  | some d => if d.isEmpty then none else some (viewOfDoc d)

/-- The document `create_mood_snapshot` builds before insertion: defaults
first, then the metadata merged over them (skipped when the metadata
mapping is absent or falsy-empty). -/
def create_doc (image_data : String) (metadata : Option Doc) (now : Nat) :
    Doc :=
  let doc : Doc :=
    [("image_data", .vstr image_data),
     ("processed", .vbool false),
     ("created_at", .vdt now)]
  match metadata with
  | some m => if m.isEmpty then doc else doc.updateWith m
  | none => doc

/-- `insert_one`: the store assigns a fresh `_id` when the document lacks
one, appends the document, and the service returns `str(inserted_id)`. -/
def insert_one (col : List Doc) (oid : String) (d : Doc) :
    List Doc × String :=
  let d2 := if (d.get? "_id").isSome then d else d ++ ([("_id", .vstr oid)] : Doc)
  (col ++ [d2], ((d2.get? "_id").getD .vnull).pyStr)

/-- `create_mood_snapshot`: build the default document, merge metadata,
insert, return the id string.  There is no validation anywhere on this
path. -/
def create_mood_snapshot (col : List Doc) (oid : String)
    (image_data : String) (metadata : Option Doc) (now : Nat) :
    List Doc × String :=
  insert_one col oid (create_doc image_data metadata now)

/-- The API boundary check of `api_create_snapshot`: reject when the
payload is falsy or lacks the `image_data` key (emptiness of the value is
not checked). -/
def api_create_rejects (payload : Doc) : Bool :=
  payload.isEmpty || !(payload.get? "image_data").isSome

/-! ## Analyzer worker (`machine-learning-client/mood_analyzer.py`) -/

/-- The FER+ emotion labels, in the exact order the code declares them;
this order is the insertion order of every emotion dictionary the
classifier produces. -/
def EMOTIONS : List String :=
  ["neutral", "happiness", "surprise", "sadness", "anger", "disgust",
   "fear"]

/-- `max(emotion_dict, key=emotion_dict.get)`: iterate the entries in
insertion order keeping the first entry whose value is strictly greater
than the best seen so far, so the first entry attaining the maximum
wins. -/
def dominantGo (bk : String) (bv : ℚ) : List (String × ℚ) → String
  | [] => bk
  | (k, v) :: rest =>
      if bv < v then dominantGo k v rest else dominantGo bk bv rest

/-- The dominant emotion of a (possibly empty) emotion dictionary. -/
def dominantEmotion : List (String × ℚ) → Option String
  | [] => none
  | (k, v) :: rest => some (dominantGo k v rest)

/-- The emotion-label to mood-category mapping of `categorize_mood`. -/
def moodOfLabel (e : String) : String :=
  if e = "happiness" then "happy"
  else if e = "sadness" ∨ e = "anger" ∨ e = "disgust" ∨ e = "fear" then
    "unhappy"
  else if e = "surprise" then "focused"
  else "neutral"

/-- `categorize_mood`: unknown on the empty dictionary, otherwise the
category of the dominant emotion. -/
def categorize_mood (emotion_dict : List (String × ℚ)) : String :=
  match dominantEmotion emotion_dict with
  | none => "unknown"
  | some dominant => moodOfLabel dominant

/-- Python exceptions relevant to the worker, tagged by type.  The
per-record handler catches exactly `ValueError`, `TypeError`,
`RuntimeError` and `ConnectionFailure`. -/
inductive Exc where
  | valueError (msg : String)
  | typeError (msg : String)
  | runtimeError (msg : String)
  | connectionFailure (msg : String)
  | indexError (msg : String)
  | otherError (ty msg : String)
  deriving DecidableEq, Repr

/-- Whether the per-record `except` clause of `process_pending_images`
catches the exception. -/
def Exc.caughtPerRecord : Exc → Bool
  | .valueError _ => true
  | .typeError _ => true
  | .runtimeError _ => true
  | .connectionFailure _ => true
  | .indexError _ => false
  | .otherError _ _ => false

/-- `str(err)`. -/
def Exc.msg : Exc → String
  | .valueError m => m
  | .typeError m => m
  | .runtimeError m => m
  | .connectionFailure m => m
  | .indexError m => m
  | .otherError _ m => m

/-- Decoded images and detected face regions are opaque to the modelled
logic; pixels are bytes, a face is an `(x, y, w, h)` box. -/
abbrev Image := List Nat

abbrev Face := Nat × Nat × Nat × Nat

/-- The injected inference capabilities: base64 decoding (may raise, e.g.
`binascii.Error`, a `ValueError`), `cv2.imdecode` (returns `None` on
undecodable bytes), the cascade face detector, the ONNX probability
vector, and face cropping. -/
structure MLEnv where
  b64decode : String → Except Exc (List Nat)
  imdecode : List Nat → Option Image
  detectFaces : Image → Except Exc (List Face)
  predictProbs : Image → Except Exc (List ℚ)
  crop : Image → Face → Image

/-- Python `s.split(",")` on the character list: split at every comma,
keeping empty parts. -/
def splitCommaAux : List Char → List Char → List (List Char)
  | [], acc => [acc.reverse]
  | c :: rest, acc =>
      if c = ',' then acc.reverse :: splitCommaAux rest []
      else splitCommaAux rest (c :: acc)

/-- Python `s.split(",")`. -/
def pySplitComma (s : String) : List String :=
  (splitCommaAux s.toList []).map List.asString

/-- `_decode_image`: `image_data.split(",")[1]` raises `IndexError` when
the string contains no comma; otherwise base64-decode the payload and let
`cv2.imdecode` produce an image or `None`. -/
def decode_image (env : MLEnv) (image_data : String) :
    Except Exc (Option Image) := do
  let parts := pySplitComma image_data
  match parts.get? 1 with
  | none => throw (.indexError "list index out of range")
  | some payload => do
      let bytes ← env.b64decode payload
      pure (env.imdecode bytes)

/-- `predict_emotion`: run the model and zip the probability vector with
the labels, so the resulting dictionary lists labels in the canonical
`EMOTIONS` order. -/
def predict_emotion (env : MLEnv) (face_img : Image) :
    Except Exc (List (String × ℚ)) := do
  let probs ← env.predictProbs face_img
  pure (EMOTIONS.zip probs)

/-- `_mark_snapshot_error`: one `$set` update writing `processed`,
`error`, `processed_at` together. -/
def markError (d : Doc) (error_msg : String) (now : Nat) : Doc :=
  ((d.set "processed" (.vbool true)).set "error"
      (.vstr error_msg)).set "processed_at" (.vdt now)

/-- `_update_snapshot_no_face`: one `$set` update writing `processed`,
`face_detected=false`, `processed_at` together. -/
def updateNoFace (d : Doc) (now : Nat) : Doc :=
  ((d.set "processed" (.vbool true)).set "face_detected"
      (.vbool false)).set "processed_at" (.vdt now)

/-- `_update_snapshot_with_face`: one `$set` update writing `processed`,
`face_detected=true`, `emotions`, `mood`, `processed_at` together. -/
def updateWithFace (d : Doc) (emotions : List (String × ℚ))
    (mood : String) (now : Nat) : Doc :=
  ((((d.set "processed" (.vbool true)).set "face_detected"
      (.vbool true)).set "emotions" (.vemap emotions)).set "mood"
      (.vstr mood)).set "processed_at" (.vdt now)

/-- The body of the per-record `try` block: decode, detect, crop the
first face, classify, and compute the updated document. -/
def processBody (env : MLEnv) (now : Nat) (d : Doc) (image_data : String) :
    Except Exc Doc := do
  let imgOpt ← decode_image env image_data
  match imgOpt with
  | none => pure (markError d "Failed to decode image" now)
  | some image => do
      let faces ← env.detectFaces image
      match faces with
      | [] => pure (updateNoFace d now)
      | face :: _ => do
          let face_img := env.crop image face
          let emotions ← predict_emotion env face_img
          let mood := categorize_mood emotions
          pure (updateWithFace d emotions mood now)

/-- One iteration of the worker's per-record loop body: skip (no update
at all) when `image_data` is absent or falsy; otherwise run the body,
catching exactly the four listed exception types and converting them to a
terminal error update.  `some d2` means one update call replacing the
record by `d2`; `none` means the record was not written.  A non-string
truthy `image_data` would raise `AttributeError` at `.split`, which the
handler does not catch. -/
def processOne (env : MLEnv) (now : Nat) (d : Doc) :
    Except Exc (Option Doc) :=
  match d.get? "image_data" with
  | none => .ok none
  | some v =>
      if v.truthy = false then .ok none
      else
        match v with
        | .vstr s =>
            match processBody env now d s with
            | .ok d2 => .ok (some d2)
            | .error e =>
                if e.caughtPerRecord then
                  .ok (some (markError d e.msg now))
                else .error e
        | _ => .error (.otherError "AttributeError" "split")

/-- The worker's polling query: `find` with an equality match on
`processed = False` (an absent field does not match). -/
def pendingMatch (d : Doc) : Bool :=
  d.get? "processed" == some (.vbool false)

/-- `update_one` keyed on `_id`: replace the first document whose `_id`
equals the given id value. -/
def updateFirst (col : List Doc) (oid : Option BValue) (d2 : Doc) :
    List Doc :=
  match col with
  | [] => []
  | d :: rest =>
      if d.get? "_id" = oid then d2 :: rest
      else d :: updateFirst rest oid d2

/-- The sequential per-record loop: each produced update is applied to
the collection; an uncaught exception aborts the batch, and the updates
already applied persist (the collection is the database).  The result is
the final collection together with the uncaught exception, if any. -/
def processLoop (env : MLEnv) (now : Nat) :
    List Doc → List Doc → List Doc × Option Exc
  | [], col => (col, none)
  | d :: rest, col =>
      match processOne env now d with
      | .ok none => processLoop env now rest col
      | .ok (some d2) =>
          processLoop env now rest (updateFirst col (d.get? "_id") d2)
      | .error e => (col, some e)

/-- `process_pending_images`: query up to 10 pending records, then run
the per-record loop over the batch. -/
def process_pending_images (env : MLEnv) (now : Nat) (col : List Doc) :
    List Doc × Option Exc :=
  processLoop env now ((col.filter pendingMatch).take 10) col

/-! ## Basic lemmas about documents -/

theorem Doc.get?_append (a b : Doc) (k : String) :
    Doc.get? (a ++ b) k =
      (match Doc.get? a k with
       | some v => some v
       | none => Doc.get? b k) := by
  induction a with
  | nil => simp [Doc.get?]
  | cons p rest ih =>
      obtain ⟨k2, v⟩ := p
      by_cases h : k2 = k <;> simp [Doc.get?, h, ih]

theorem Doc.get?_optEntry_self (k : String) (v : Option BValue) :
    Doc.get? (optEntry k v) k = v := by
  cases v <;> simp [optEntry, Doc.get?]

theorem Doc.get?_optEntry_ne (k k2 : String) (v : Option BValue)
    (h : k2 ≠ k) : Doc.get? (optEntry k2 v) k = none := by
  cases v <;> simp [optEntry, Doc.get?, h]

theorem Doc.get?_set_self (d : Doc) (k : String) (v : BValue) :
    Doc.get? (d.set k v) k = some v := by
  induction d with
  | nil => simp [Doc.set, Doc.get?]
  | cons p rest ih =>
      obtain ⟨k2, v2⟩ := p
      by_cases h : k2 = k <;> simp [Doc.set, Doc.get?, h, ih]

theorem Doc.get?_set_ne (d : Doc) (k k2 : String) (v : BValue)
    (h : k ≠ k2) : Doc.get? (d.set k v) k2 = d.get? k2 := by
  induction d with
  | nil => simp [Doc.set, Doc.get?, h]
  | cons p rest ih =>
      obtain ⟨k3, v3⟩ := p
      by_cases h3 : k3 = k
      · subst h3
        simp [Doc.set, Doc.get?, h]
      · by_cases h4 : k3 = k2
        · subst h4
          simp [Doc.set, Doc.get?, h3]
        · simp [Doc.set, Doc.get?, h3, h4, ih]

theorem Doc.get?_updateWith_not_mem (d : Doc) (m : Doc) (k : String)
    (h : ∀ p ∈ m, p.1 ≠ k) :
    Doc.get? (d.updateWith m) k = d.get? k := by
  induction m generalizing d with
  | nil => simp [Doc.updateWith]
  | cons p rest ih =>
      obtain ⟨k2, v2⟩ := p
      have hk2 : k2 ≠ k := h (k2, v2) (by simp)
      have hrest : ∀ p ∈ rest, p.1 ≠ k := fun p hp => h p (by simp [hp])
      calc Doc.get? ((d.set k2 v2).updateWith rest) k
        = Doc.get? (d.set k2 v2) k := ih (d.set k2 v2) hrest
        _ = d.get? k := Doc.get?_set_ne d k2 k v2 hk2

theorem Doc.get?_updateWith_mem (d : Doc) (m : Doc) (k : String)
    (v : BValue) (hnd : (m.map Prod.fst).Nodup)
    (h : Doc.get? m k = some v) :
    Doc.get? (d.updateWith m) k = some v := by
  induction m generalizing d with
  | nil => simp [Doc.get?] at h
  | cons p rest ih =>
      obtain ⟨k2, v2⟩ := p
      simp only [List.map_cons, List.nodup_cons] at hnd
      by_cases hk : k2 = k
      · have hv : v2 = v := by simpa [Doc.get?, hk] using h
        have hrest : ∀ p ∈ rest, p.1 ≠ k := by
          intro p hp hc
          have hm : p.1 ∈ rest.map Prod.fst :=
            List.mem_map_of_mem Prod.fst hp
          rw [hc, ← hk] at hm
          exact hnd.1 hm
        show Doc.get? ((d.set k2 v2).updateWith rest) k = some v
        rw [Doc.get?_updateWith_not_mem _ rest k hrest, ← hv, hk]
        exact Doc.get?_set_self d k v2
      · have h2 : Doc.get? rest k = some v := by
          simpa [Doc.get?, hk] using h
        show Doc.get? ((d.set k2 v2).updateWith rest) k = some v
        exact ih (d.set k2 v2) hnd.2 h2

theorem updateFirst_length (col : List Doc) (oid : Option BValue)
    (d2 : Doc) : (updateFirst col oid d2).length = col.length := by
  induction col with
  | nil => simp [updateFirst]
  | cons d rest ih =>
      by_cases h : Doc.get? d "_id" = oid <;> simp [updateFirst, h, ih]

/-- A document whose id differs from the update's target id is left in
place, position by position. -/
theorem updateFirst_frame (col : List Doc) (oid : Option BValue)
    (d2 : Doc) (i : Nat) (d : Doc) (hget : col[i]? = some d)
    (h : Doc.get? d "_id" ≠ oid) :
    (updateFirst col oid d2)[i]? = some d := by
  induction col generalizing i with
  | nil => simp at hget
  | cons e rest ih =>
      by_cases he : Doc.get? e "_id" = oid
      · cases i with
        | zero =>
            have he2 : e = d := by simpa using hget
            exact absurd (he2 ▸ he) h
        | succ j =>
            simp only [updateFirst, if_pos he]
            simpa using hget
      · cases i with
        | zero =>
            have he2 : e = d := by simpa using hget
            subst he2
            simp [updateFirst, he]
        | succ j =>
            simp only [updateFirst, if_neg he]
            simp only [List.getElem?_cons_succ] at hget ⊢
            exact ih j hget

/-! ## Lemmas about the client-facing view -/

theorem Doc.get?_optEntry_append_ne (k k2 : String) (v : Option BValue)
    (rest : Doc) (h : k2 ≠ k) :
    Doc.get? (optEntry k2 v ++ rest) k = Doc.get? rest k := by
  cases v <;> simp [optEntry, Doc.get?, h]

theorem optEntry_none (k : String) : optEntry k none = [] := rfl

theorem optEntry_some (k : String) (x : BValue) :
    optEntry k (some x) = [(k, x)] := rfl

theorem view_get?_status (d : Doc) :
    Doc.get? (viewOfDoc d) "status" = some (.vstr (statusOf d)) := by
  simp [viewOfDoc, List.append_assoc, Doc.get?,
    Doc.get?_optEntry_append_ne]

theorem view_get?_processed (d : Doc) :
    Doc.get? (viewOfDoc d) "processed" = some (.vbool (docProcessed d)) := by
  simp [viewOfDoc, List.append_assoc, Doc.get?]

theorem view_get?_mood (d : Doc) :
    Doc.get? (viewOfDoc d) "mood" = d.get? "mood" := by
  cases h : d.get? "mood" <;>
    simp [viewOfDoc, List.append_assoc, Doc.get?,
      Doc.get?_optEntry_append_ne, h, optEntry_none, optEntry_some]

theorem view_get?_emotions (d : Doc) :
    Doc.get? (viewOfDoc d) "emotions" = d.get? "emotions" := by
  cases h : d.get? "emotions" <;>
    simp [viewOfDoc, List.append_assoc, Doc.get?,
      Doc.get?_optEntry_append_ne, h, optEntry_none, optEntry_some]

theorem view_get?_face_detected (d : Doc) :
    Doc.get? (viewOfDoc d) "face_detected" = d.get? "face_detected" := by
  cases h : d.get? "face_detected" <;>
    simp [viewOfDoc, List.append_assoc, Doc.get?,
      Doc.get?_optEntry_append_ne, h, optEntry_none, optEntry_some]

theorem get_snapshot_view_of_raw (col : List Doc) (sid : String)
    (d : Doc) (hfind : get_snapshot_by_id_raw col sid = some d)
    (hne : d ≠ []) :
    get_snapshot_view col sid = some (viewOfDoc d) := by
  have he : d.isEmpty = false := by
    cases d with
    | nil => exact absurd rfl hne
    | cons p rest => rfl
  simp [get_snapshot_view, hfind, he]

/-- The GET route's mapping of a lookup result: a missing view becomes
the 404 not-found response, a present view is returned as the body. -/
inductive ApiResult where
  | ok (body : Doc)
  | notFound
  deriving DecidableEq

/-- `api_get_snapshot`: fetch the view and map `none` to not-found. -/
def api_get_snapshot (col : List Doc) (sid : String) : ApiResult :=
  match get_snapshot_view col sid with
  | none => .notFound
  | some v => .ok v

/-! ## Claims about the lifecycle service -/

/-- C1: for every raw snapshot record found by id, the view returned by
`get_snapshot_view` has status `"pending"` when the record's `processed`
field is falsy (in particular when it is `false` or absent); otherwise
status is `"error"` exactly when the `error` field is set to a non-null
value, and `"done"` when it is not — error takes precedence over done. -/
theorem C1_status_derivation (col : List Doc) (sid : String) (d : Doc)
    (hfind : get_snapshot_by_id_raw col sid = some d) (hne : d ≠ []) :
    ∃ v, get_snapshot_view col sid = some v ∧
      Doc.get? v "status" =
        some (.vstr (if docProcessed d = false then "pending"
          else if docErrSet d then "error" else "done")) := by
  refine ⟨viewOfDoc d, get_snapshot_view_of_raw col sid d hfind hne, ?_⟩
  rw [view_get?_status]
  rfl

/-- C1 witness: a concrete processed record with both a result-free shape
and a set error field is reported as status error (error precedence). -/
theorem C1_status_derivation_witness :
    ∃ v,
      get_snapshot_view
        [[("_id", .vstr "abcdefabcdefabcdefabcdef"),
          ("processed", .vbool true), ("error", .vstr "boom")]]
        "abcdefabcdefabcdefabcdef" = some v ∧
      Doc.get? v "status" =
        some (.vstr
          (if docProcessed
              [("_id", .vstr "abcdefabcdefabcdefabcdef"),
               ("processed", .vbool true), ("error", .vstr "boom")] = false
           then "pending"
           else if docErrSet
              [("_id", .vstr "abcdefabcdefabcdefabcdef"),
               ("processed", .vbool true), ("error", .vstr "boom")]
           then "error" else "done")) :=
  C1_status_derivation _ _
    [("_id", .vstr "abcdefabcdefabcdefabcdef"),
     ("processed", .vbool true), ("error", .vstr "boom")]
    (by decide) (by decide)

/-- C5 counterexample: a pending raw record that carries a `mood` field
(creatable through the metadata parameter) yields a view that contains
`mood`, refuting the claim that views of records with `processed=false`
never include `mood`, `emotions` or `face_detected`. -/
theorem C5_counterexample :
    docProcessed
      [("_id", .vstr "abcdefabcdefabcdefabcdef"),
       ("mood", .vstr "happy")] = false ∧
    ∃ v,
      get_snapshot_view
        [[("_id", .vstr "abcdefabcdefabcdefabcdef"),
          ("mood", .vstr "happy")]]
        "abcdefabcdefabcdefabcdef" = some v ∧
      Doc.get? v "mood" = some (.vstr "happy") ∧
      Doc.get? v "status" = some (.vstr "pending") := by
  refine ⟨by decide,
    viewOfDoc
      [("_id", .vstr "abcdefabcdefabcdefabcdef"),
       ("mood", .vstr "happy")],
    by decide, by decide, by decide⟩

/-- C5 (amended): the view projection is sparse — it carries `mood`,
`emotions` and `face_detected` exactly when the raw record does,
independently of `processed`; hence for every found record lacking all
three fields (as fresh pending records created without such metadata do)
the view contains none of them. -/
theorem C5_sparse_projection (col : List Doc) (sid : String) (d : Doc)
    (hfind : get_snapshot_by_id_raw col sid = some d) (hne : d ≠ [])
    (hm : Doc.get? d "mood" = none) (he : Doc.get? d "emotions" = none)
    (hf : Doc.get? d "face_detected" = none) :
    ∃ v, get_snapshot_view col sid = some v ∧
      Doc.get? v "mood" = none ∧ Doc.get? v "emotions" = none ∧
      Doc.get? v "face_detected" = none :=
  ⟨viewOfDoc d, get_snapshot_view_of_raw col sid d hfind hne,
   by rw [view_get?_mood]; exact hm,
   by rw [view_get?_emotions]; exact he,
   by rw [view_get?_face_detected]; exact hf⟩

/-- C5 amended witness: the view of a concrete fresh pending record
contains none of the three result fields. -/
theorem C5_sparse_projection_witness :
    ∃ v,
      get_snapshot_view
        [[("image_data", .vstr "img"), ("processed", .vbool false),
          ("created_at", .vdt 0),
          ("_id", .vstr "0123456789abcdef01234567")]]
        "0123456789abcdef01234567" = some v ∧
      Doc.get? v "mood" = none ∧ Doc.get? v "emotions" = none ∧
      Doc.get? v "face_detected" = none :=
  C5_sparse_projection _ _
    [("image_data", .vstr "img"), ("processed", .vbool false),
     ("created_at", .vdt 0), ("_id", .vstr "0123456789abcdef01234567")]
    (by decide) (by decide) (by decide) (by decide) (by decide)

/-- C9: for every id string, a structurally malformed id (rejected by the
ObjectId parser) or a well-formed id with no matching record makes
`get_snapshot_view` return `none` — the try/except around the parser
means no exception reaches the caller — and the API route maps `none` to
the not-found response. -/
theorem C9_lookup_total (col : List Doc) (sid : String)
    (h : isValidObjectId sid = false ∨ findOne col (.vstr sid) = none) :
    get_snapshot_view col sid = none ∧
    api_get_snapshot col sid = .notFound := by
  have hraw : get_snapshot_by_id_raw col sid = none := by
    cases h with
    | inl h => simp [get_snapshot_by_id_raw, h]
    | inr h => simp [get_snapshot_by_id_raw, h]
  refine ⟨?_, ?_⟩ <;> simp [get_snapshot_view, api_get_snapshot, hraw]

/-- C9 witness: a concrete malformed id (not 24 hex characters) on a
nonempty collection, and a concrete well-formed id on a collection not
containing it, both yield none / not-found. -/
theorem C9_lookup_total_witness :
    (get_snapshot_view
        [[("_id", .vstr "abcdefabcdefabcdefabcdef")]]
        "not-a-valid-object-id" = none ∧
      api_get_snapshot
        [[("_id", .vstr "abcdefabcdefabcdefabcdef")]]
        "not-a-valid-object-id" = .notFound) ∧
    (get_snapshot_view
        [[("_id", .vstr "abcdefabcdefabcdefabcdef")]]
        "0123456789abcdef01234567" = none ∧
      api_get_snapshot
        [[("_id", .vstr "abcdefabcdefabcdefabcdef")]]
        "0123456789abcdef01234567" = .notFound) :=
  ⟨C9_lookup_total _ _ (Or.inl (by decide)),
   C9_lookup_total _ _ (Or.inr (by decide))⟩

/-- C4 counterexample: `create_mood_snapshot` called with empty
`image_data` raises nothing and inserts a record (with empty image data)
into the empty collection, returning the new id — there is no
`ValidationError` path in the service. -/
theorem C4_counterexample :
    (create_mood_snapshot [] "abc123abc123abc123abc123" "" none 0).1 =
      [[("image_data", .vstr ""), ("processed", .vbool false),
        ("created_at", .vdt 0),
        ("_id", .vstr "abc123abc123abc123abc123")]] ∧
    (create_mood_snapshot [] "abc123abc123abc123abc123" "" none 0).2 =
      "abc123abc123abc123abc123" := by
  exact ⟨rfl, rfl⟩

/-- C4 (amended): the service performs no validation at all — for every
`image_data`, including the empty string, `create_mood_snapshot` inserts
exactly one record carrying that `image_data` and returns its id; only
the API boundary rejects creation requests, and only when the payload
lacks the `image_data` key entirely (an empty-string value passes the
boundary and is stored). -/
theorem C4_no_validation (col : List Doc) (oid : String)
    (image_data : String) (now : Nat) :
    (create_mood_snapshot col oid image_data none now).1 =
      col ++ [[("image_data", .vstr image_data),
               ("processed", .vbool false), ("created_at", .vdt now),
               ("_id", .vstr oid)]] ∧
    (create_mood_snapshot col oid image_data none now).2 = oid ∧
    api_create_rejects [("image_data", .vstr image_data)] = false := by
  refine ⟨rfl, rfl, ?_⟩
  simp [api_create_rejects, Doc.get?]

/-- C10: the metadata mapping is merged after the default fields, so a
metadata entry for `processed`, `created_at` or `image_data` overrides
the default in the inserted record; in particular metadata
`processed=true` produces a record that the worker's pending query never
matches, so it is never picked up. -/
theorem C10_metadata_overrides (image_data : String) (now : Nat) (m : Doc)
    (hnd : (m.map Prod.fst).Nodup) :
    (∀ v, Doc.get? m "processed" = some v →
       Doc.get? (create_doc image_data (some m) now) "processed" = some v) ∧
    (∀ v, Doc.get? m "created_at" = some v →
       Doc.get? (create_doc image_data (some m) now) "created_at" = some v) ∧
    (∀ v, Doc.get? m "image_data" = some v →
       Doc.get? (create_doc image_data (some m) now) "image_data" = some v) ∧
    (Doc.get? m "processed" = some (.vbool true) →
       ∀ col : List Doc,
         create_doc image_data (some m) now ∉ col.filter pendingMatch) := by
  cases m with
  | nil =>
      refine ⟨?_, ?_, ?_, ?_⟩
      · intro v h
        simp [Doc.get?] at h
      · intro v h
        simp [Doc.get?] at h
      · intro v h
        simp [Doc.get?] at h
      · intro h
        simp [Doc.get?] at h
  | cons p rest =>
      have hcd : create_doc image_data (some (p :: rest)) now =
          Doc.updateWith
            [("image_data", .vstr image_data),
             ("processed", .vbool false), ("created_at", .vdt now)]
            (p :: rest) := rfl
      refine ⟨?_, ?_, ?_, ?_⟩
      · intro v h
        rw [hcd]
        exact Doc.get?_updateWith_mem _ _ _ _ hnd h
      · intro v h
        rw [hcd]
        exact Doc.get?_updateWith_mem _ _ _ _ hnd h
      · intro v h
        rw [hcd]
        exact Doc.get?_updateWith_mem _ _ _ _ hnd h
      · intro h col hmem
        have hp : Doc.get? (create_doc image_data (some (p :: rest)) now)
            "processed" = some (.vbool true) := by
          rw [hcd]
          exact Doc.get?_updateWith_mem _ _ _ _ hnd h
        have hpm := (List.mem_filter.mp hmem).2
        rw [pendingMatch, hp] at hpm
        simp at hpm

/-- C10 witness: concrete metadata with `processed=true` overrides the
default and the created record does not match the pending query. -/
theorem C10_metadata_overrides_witness :
    Doc.get? (create_doc "img" (some [("processed", .vbool true)]) 0)
      "processed" = some (.vbool true) ∧
    create_doc "img" (some [("processed", .vbool true)]) 0 ∉
      List.filter pendingMatch
        [create_doc "img" (some [("processed", .vbool true)]) 0] :=
  ⟨(C10_metadata_overrides "img" 0 [("processed", .vbool true)]
      (by decide)).1 (.vbool true) (by decide),
   (C10_metadata_overrides "img" 0 [("processed", .vbool true)]
      (by decide)).2.2.2 (by decide) _⟩

/-! ## Claims about the mood classification rule -/

theorem dominantGo_all_le (bk : String) (bv : ℚ)
    (l : List (String × ℚ)) (h : ∀ q ∈ l, q.2 ≤ bv) :
    dominantGo bk bv l = bk := by
  induction l with
  | nil => rfl
  | cons q rest ih =>
      obtain ⟨k2, v2⟩ := q
      have hv2 : v2 ≤ bv := h (k2, v2) (by simp)
      have hnot : ¬ bv < v2 := not_lt_of_le hv2
      simp only [dominantGo, if_neg hnot]
      exact ih fun q hq => h q (by simp [hq])

theorem dominantGo_through (bk : String) (bv : ℚ)
    (l1 : List (String × ℚ)) (k : String) (v : ℚ)
    (l2 : List (String × ℚ)) (hbv : bv < v)
    (h1 : ∀ q ∈ l1, q.2 < v) (h2 : ∀ q ∈ l2, q.2 ≤ v) :
    dominantGo bk bv (l1 ++ (k, v) :: l2) = k := by
  induction l1 generalizing bk bv with
  | nil =>
      simp only [List.nil_append, dominantGo, if_pos hbv]
      exact dominantGo_all_le k v l2 h2
  | cons q rest ih =>
      obtain ⟨k2, v2⟩ := q
      have hv2 : v2 < v := h1 (k2, v2) (by simp)
      have hrest : ∀ q ∈ rest, q.2 < v := fun q hq => h1 q (by simp [hq])
      by_cases hb : bv < v2
      · simp only [List.cons_append, dominantGo, if_pos hb]
        exact ih k2 v2 hv2 hrest
      · simp only [List.cons_append, dominantGo, if_neg hb]
        exact ih bk bv hbv hrest

/-- The dominant emotion is the first entry attaining the maximal value:
every entry strictly before it is strictly smaller, every entry after it
is at most it. -/
theorem dominant_first_max (l1 : List (String × ℚ)) (k : String) (v : ℚ)
    (l2 : List (String × ℚ)) (hbefore : ∀ q ∈ l1, q.2 < v)
    (hafter : ∀ q ∈ l2, q.2 ≤ v) :
    dominantEmotion (l1 ++ (k, v) :: l2) = some k := by
  cases l1 with
  | nil =>
      simp only [List.nil_append, dominantEmotion]
      exact congrArg some (dominantGo_all_le k v l2 hafter)
  | cons q rest =>
      obtain ⟨k0, v0⟩ := q
      have hv0 : v0 < v := hbefore (k0, v0) (by simp)
      have hrest : ∀ q ∈ rest, q.2 < v := fun q hq =>
        hbefore q (by simp [hq])
      simp only [List.cons_append, dominantEmotion]
      exact congrArg some
        (dominantGo_through k0 v0 rest k v l2 hv0 hrest hafter)

/-- C3: every emotion dictionary the classifier produces is
`EMOTIONS.zip probs`, whose insertion order is the canonical label
ordering neutral, happiness, surprise, sadness, anger, disgust, fear.
When `(k, v)` is the first entry of that dictionary attaining the maximal
probability — every earlier label is strictly smaller, every later label
(tied or not) is at most `v` — `categorize_mood` selects `k` as dominant
and returns its mood category.  In particular among tied maximal labels
the one appearing first in the canonical ordering wins. -/
theorem C3_canonical_tie_break (probs : List ℚ)
    (l1 l2 : List (String × ℚ)) (k : String) (v : ℚ)
    (hsplit : EMOTIONS.zip probs = l1 ++ (k, v) :: l2)
    (hbefore : ∀ q ∈ l1, q.2 < v) (hafter : ∀ q ∈ l2, q.2 ≤ v) :
    dominantEmotion (EMOTIONS.zip probs) = some k ∧
    categorize_mood (EMOTIONS.zip probs) = moodOfLabel k := by
  have hd : dominantEmotion (EMOTIONS.zip probs) = some k := by
    rw [hsplit]
    exact dominant_first_max l1 k v l2 hbefore hafter
  refine ⟨hd, ?_⟩
  rw [categorize_mood, hd]

/-- C3 witness: happiness and surprise tie for the maximum; happiness
precedes surprise in the canonical ordering, so the mood is happy, not
focused. -/
theorem C3_canonical_tie_break_witness :
    dominantEmotion
      (EMOTIONS.zip [(5 : ℚ), 7, 7, 1, 1, 1, 1]) = some "happiness" ∧
    categorize_mood
      (EMOTIONS.zip [(5 : ℚ), 7, 7, 1, 1, 1, 1]) =
      moodOfLabel "happiness" :=
  C3_canonical_tie_break [(5 : ℚ), 7, 7, 1, 1, 1, 1]
    [("neutral", 5)]
    [("surprise", 7), ("sadness", 1), ("anger", 1), ("disgust", 1),
     ("fear", 1)]
    "happiness" 7 (by decide)
    (by intro q hq; fin_cases hq; norm_num)
    (by intro q hq; fin_cases hq <;> norm_num)

/-- C6: `categorize_mood` is a total function on emotion dictionaries:
the empty dictionary yields unknown, and otherwise the dominant label is
mapped happiness to happy; sadness, anger, disgust, fear to unhappy;
surprise to focused; and neutral or any other label to neutral. -/
theorem C6_categorize_total (d : List (String × ℚ)) :
    (d = [] → categorize_mood d = "unknown") ∧
    (∀ e, dominantEmotion d = some e →
      categorize_mood d =
        (if e = "happiness" then "happy"
         else if e = "sadness" ∨ e = "anger" ∨ e = "disgust" ∨ e = "fear"
           then "unhappy"
         else if e = "surprise" then "focused"
         else "neutral")) := by
  constructor
  · intro h
    subst h
    rfl
  · intro e he
    rw [categorize_mood, he]
    rfl

/-- C6 witness: concrete dictionaries exercising the unknown, unhappy
and neutral-fallthrough branches of the mapping. -/
theorem C6_categorize_total_witness :
    categorize_mood ([] : List (String × ℚ)) = "unknown" ∧
    categorize_mood [("sadness", (2 : ℚ)), ("happiness", 1)] =
      "unhappy" ∧
    categorize_mood [("contempt", (1 : ℚ))] = "neutral" := by
  refine ⟨(C6_categorize_total []).1 rfl, ?_, ?_⟩
  · have h := (C6_categorize_total [("sadness", (2 : ℚ)),
      ("happiness", 1)]).2 "sadness" (by decide)
    rw [h]
    decide
  · have h := (C6_categorize_total [("contempt", (1 : ℚ))]).2
      "contempt" (by decide)
    rw [h]
    decide

/-! ## Claims about the analyzer worker -/

/-- A concrete instantiation of the inference capabilities, used to
evaluate the worker loop on concrete collections. -/
def trivialEnv : MLEnv where
  b64decode := fun _ => .ok [1]
  imdecode := fun _ => some [1]
  detectFaces := fun _ => .ok []
  predictProbs := fun _ => .ok []
  crop := fun img _ => img

/-- A record with missing `image_data` produces no update at all. -/
theorem processOne_skip (env : MLEnv) (now : Nat) (d : Doc)
    (himg : Doc.get? d "image_data" = none) :
    processOne env now d = .ok none := by
  simp [processOne, himg]

/-- Frame lemma for the per-record loop: a record whose `image_data` is
missing and whose id no other batch record shares is never written, at
any point of the batch, whether or not the batch aborts. -/
theorem processLoop_frame (env : MLEnv) (now : Nat)
    (batch : List Doc) (col : List Doc) (d : Doc) (i : Nat)
    (hget : col[i]? = some d) (himg : Doc.get? d "image_data" = none)
    (hb : ∀ e ∈ batch, e = d ∨ Doc.get? e "_id" ≠ Doc.get? d "_id") :
    (processLoop env now batch col).1[i]? = some d := by
  induction batch generalizing col with
  | nil => exact hget
  | cons e rest ih =>
      have hbrest : ∀ x ∈ rest, x = d ∨
          Doc.get? x "_id" ≠ Doc.get? d "_id" :=
        fun x hx => hb x (by simp [hx])
      rcases hb e (by simp) with he | he
      · subst he
        simp only [processLoop, processOne_skip env now e himg]
        exact ih col hget hbrest
      · cases hpo : processOne env now e with
        | ok o =>
            cases o with
            | none =>
                simp only [processLoop, hpo]
                exact ih col hget hbrest
            | some e2 =>
                simp only [processLoop, hpo]
                exact ih (updateFirst col (Doc.get? e "_id") e2)
                  (updateFirst_frame col (Doc.get? e "_id") e2 i d hget
                    fun hc => he hc.symm) hbrest
        | error ex =>
            simp only [processLoop, hpo]
            exact hget

/-- C8: for every record in the collection whose `image_data` field is
missing (and whose id is unique, as mongo ids are),
`process_pending_images` skips it and leaves it entirely unchanged at its
position — no field is written, it stays pending. -/
theorem C8_skip_missing_image (env : MLEnv) (now : Nat) (col : List Doc)
    (i : Nat) (d : Doc) (hget : col[i]? = some d)
    (himg : Doc.get? d "image_data" = none)
    (huniq : ∀ e ∈ col, e = d ∨ Doc.get? e "_id" ≠ Doc.get? d "_id") :
    (process_pending_images env now col).1[i]? = some d := by
  refine processLoop_frame env now _ col d i hget himg ?_
  intro e he
  exact huniq e (List.mem_of_mem_filter (List.take_subset _ _ he))

/-- C8 witness: a concrete pending record without `image_data` survives
one whole worker cycle untouched. -/
theorem C8_skip_missing_image_witness :
    (process_pending_images trivialEnv 0
        [[("_id", .vstr "a"), ("processed", .vbool false)]]).1[0]? =
      some [("_id", .vstr "a"), ("processed", .vbool false)] :=
  C8_skip_missing_image trivialEnv 0
    [[("_id", .vstr "a"), ("processed", .vbool false)]] 0
    [("_id", .vstr "a"), ("processed", .vbool false)]
    (by decide) (by decide)
    (by
      intro e he
      left
      simpa using he)

/-- C2 counterexample: a pending record whose `image_data` contains no
comma makes `_decode_image` raise `IndexError` at
`image_data.split(",")[1]`; `IndexError` is not among the four caught
exception types, so it propagates out of `process_pending_images` and
the record is left pending and unmarked, refuting the claim that any
exception during per-record processing marks the record terminal. -/
theorem C2_counterexample :
    process_pending_images trivialEnv 0
        [[("_id", .vstr "a"), ("processed", .vbool false),
          ("image_data", .vstr "notbase64")]] =
      ([[("_id", .vstr "a"), ("processed", .vbool false),
         ("image_data", .vstr "notbase64")]],
       some (.indexError "list index out of range")) := by
  rfl

/-- C2 (amended): exceptions of the four caught types — `ValueError`,
`TypeError`, `RuntimeError`, `ConnectionFailure` — raised during
decoding, face detection, inference or classification are contained by
the per-record handler: the record is updated in one call to
`processed=true` with `error` set to the exception message and
`processed_at` set, and no such exception escapes.  Exceptions of other
types (e.g. `IndexError`) are not caught and propagate. -/
theorem C2_caught_contained (env : MLEnv) (now : Nat) (d : Doc)
    (s : String) (e : Exc)
    (himg : Doc.get? d "image_data" = some (.vstr s))
    (hs : s.isEmpty = false)
    (herr : processBody env now d s = .error e)
    (hcaught : e.caughtPerRecord = true) :
    processOne env now d = .ok (some (markError d e.msg now)) ∧
    Doc.get? (markError d e.msg now) "processed" = some (.vbool true) ∧
    Doc.get? (markError d e.msg now) "error" = some (.vstr e.msg) ∧
    (Doc.get? (markError d e.msg now) "processed_at").isSome = true := by
  refine ⟨?_, ?_, ?_, ?_⟩
  · simp [processOne, himg, BValue.truthy, hs, herr, hcaught]
  · rw [markError, Doc.get?_set_ne _ _ _ _ (by decide),
      Doc.get?_set_ne _ _ _ _ (by decide), Doc.get?_set_self]
  · rw [markError, Doc.get?_set_ne _ _ _ _ (by decide),
      Doc.get?_set_self]
  · rw [markError, Doc.get?_set_self]
    rfl

/-- C2 amended witness: a concrete `ValueError` raised by face detection
is contained and recorded on the record. -/
theorem C2_caught_contained_witness :
    processOne
        (MLEnv.mk (fun _ => .ok [1]) (fun _ => some [1])
          (fun _ => .error (.valueError "bad")) (fun _ => .ok [])
          (fun img _ => img)) 0
        [("_id", .vstr "a"), ("processed", .vbool false),
         ("image_data", .vstr "x,y")] =
      .ok (some (markError
        [("_id", .vstr "a"), ("processed", .vbool false),
         ("image_data", .vstr "x,y")] (Exc.valueError "bad").msg 0)) ∧
    Doc.get? (markError
        [("_id", .vstr "a"), ("processed", .vbool false),
         ("image_data", .vstr "x,y")] (Exc.valueError "bad").msg 0)
      "processed" = some (.vbool true) ∧
    Doc.get? (markError
        [("_id", .vstr "a"), ("processed", .vbool false),
         ("image_data", .vstr "x,y")] (Exc.valueError "bad").msg 0)
      "error" = some (.vstr (Exc.valueError "bad").msg) ∧
    (Doc.get? (markError
        [("_id", .vstr "a"), ("processed", .vbool false),
         ("image_data", .vstr "x,y")] (Exc.valueError "bad").msg 0)
      "processed_at").isSome = true :=
  C2_caught_contained
    (MLEnv.mk (fun _ => .ok [1]) (fun _ => some [1])
      (fun _ => .error (.valueError "bad")) (fun _ => .ok [])
      (fun img _ => img)) 0
    [("_id", .vstr "a"), ("processed", .vbool false),
     ("image_data", .vstr "x,y")]
    "x,y" (.valueError "bad") (by decide) (by decide) rfl rfl

/-- Whether the `processed_at` timestamp is present exactly when the
`processed` flag is the boolean true — the record-shape invariant the
spec states. -/
def processedAtConsistent (d : Doc) : Bool :=
  (Doc.get? d "processed" == some (.vbool true)) ==
    (Doc.get? d "processed_at").isSome

/-- C7 counterexample: creation is not invariant-preserving for every
call — a caller passing metadata `processed=true` obtains an inserted
record with `processed=true` but no `processed_at`, breaking the claimed
invariant at creation. -/
theorem C7_counterexample :
    processedAtConsistent
        (create_doc "img" (some [("processed", .vbool true)]) 0) =
      false ∧
    Doc.get? (create_doc "img" (some [("processed", .vbool true)]) 0)
        "processed" = some (.vbool true) ∧
    Doc.get? (create_doc "img" (some [("processed", .vbool true)]) 0)
        "processed_at" = none := by
  refine ⟨by decide, by decide, by decide⟩

/-- C7 (amended): creation without metadata, or with metadata touching
neither `processed` nor `processed_at`, stores `processed=false` with no
`processed_at`; each of the three worker terminal updates sets
`processed=true` and `processed_at` together in one update, preserving
the invariant on any record; and no update ever writes `processed`
false.  Only creation with metadata overriding those keys can break the
invariant. -/
theorem C7_invariant_amended :
    (∀ img now, processedAtConsistent (create_doc img none now) = true ∧
       Doc.get? (create_doc img none now) "processed" =
         some (.vbool false) ∧
       Doc.get? (create_doc img none now) "processed_at" = none) ∧
    (∀ img now m,
       (∀ p ∈ m, p.1 ≠ "processed" ∧ p.1 ≠ "processed_at") →
       processedAtConsistent (create_doc img (some m) now) = true) ∧
    (∀ d msg now,
       Doc.get? (markError d msg now) "processed" = some (.vbool true) ∧
       Doc.get? (markError d msg now) "processed_at" = some (.vdt now) ∧
       processedAtConsistent (markError d msg now) = true) ∧
    (∀ d now,
       Doc.get? (updateNoFace d now) "processed" = some (.vbool true) ∧
       Doc.get? (updateNoFace d now) "processed_at" = some (.vdt now) ∧
       processedAtConsistent (updateNoFace d now) = true) ∧
    (∀ d em mood now,
       Doc.get? (updateWithFace d em mood now) "processed" =
         some (.vbool true) ∧
       Doc.get? (updateWithFace d em mood now) "processed_at" =
         some (.vdt now) ∧
       processedAtConsistent (updateWithFace d em mood now) = true) := by
  refine ⟨?_, ?_, ?_, ?_, ?_⟩
  · intro img now
    refine ⟨rfl, rfl, rfl⟩
  · intro img now m hm
    cases m with
    | nil => rfl
    | cons p rest =>
        have hp : Doc.get? (create_doc img (some (p :: rest)) now)
            "processed" = some (.vbool false) := by
          have := Doc.get?_updateWith_not_mem
            [("image_data", .vstr img), ("processed", .vbool false),
             ("created_at", .vdt now)] (p :: rest) "processed"
            (fun q hq => (hm q hq).1)
          exact this.trans rfl
        have hpa : Doc.get? (create_doc img (some (p :: rest)) now)
            "processed_at" = none := by
          have := Doc.get?_updateWith_not_mem
            [("image_data", .vstr img), ("processed", .vbool false),
             ("created_at", .vdt now)] (p :: rest) "processed_at"
            (fun q hq => (hm q hq).2)
          exact this.trans rfl
        rw [processedAtConsistent, hp, hpa]
        rfl
  · intro d msg now
    have h1 : Doc.get? (markError d msg now) "processed" =
        some (.vbool true) := by
      rw [markError, Doc.get?_set_ne _ _ _ _ (by decide),
        Doc.get?_set_ne _ _ _ _ (by decide), Doc.get?_set_self]
    have h2 : Doc.get? (markError d msg now) "processed_at" =
        some (.vdt now) := by
      rw [markError, Doc.get?_set_self]
    refine ⟨h1, h2, ?_⟩
    rw [processedAtConsistent, h1, h2]
    rfl
  · intro d now
    have h1 : Doc.get? (updateNoFace d now) "processed" =
        some (.vbool true) := by
      rw [updateNoFace, Doc.get?_set_ne _ _ _ _ (by decide),
        Doc.get?_set_ne _ _ _ _ (by decide), Doc.get?_set_self]
    have h2 : Doc.get? (updateNoFace d now) "processed_at" =
        some (.vdt now) := by
      rw [updateNoFace, Doc.get?_set_self]
    refine ⟨h1, h2, ?_⟩
    rw [processedAtConsistent, h1, h2]
    rfl
  · intro d em mood now
    have h1 : Doc.get? (updateWithFace d em mood now) "processed" =
        some (.vbool true) := by
      rw [updateWithFace, Doc.get?_set_ne _ _ _ _ (by decide),
        Doc.get?_set_ne _ _ _ _ (by decide),
        Doc.get?_set_ne _ _ _ _ (by decide),
        Doc.get?_set_ne _ _ _ _ (by decide), Doc.get?_set_self]
    have h2 : Doc.get? (updateWithFace d em mood now) "processed_at" =
        some (.vdt now) := by
      rw [updateWithFace, Doc.get?_set_self]
    refine ⟨h1, h2, ?_⟩
    rw [processedAtConsistent, h1, h2]
    rfl

/-- C7 amended witness: a concrete creation with benign metadata and a
concrete terminal update both satisfy the invariant. -/
theorem C7_invariant_amended_witness :
    processedAtConsistent
        (create_doc "img" (some [("user_id", .vstr "u1")]) 3) = true ∧
    processedAtConsistent
        (updateNoFace [("_id", .vstr "a"), ("processed", .vbool false)]
          5) = true :=
  ⟨C7_invariant_amended.2.1 "img" 3 [("user_id", .vstr "u1")]
      (by intro p hp; simp at hp; rw [hp]; exact ⟨by decide, by decide⟩),
   (C7_invariant_amended.2.2.2.1
      [("_id", .vstr "a"), ("processed", .vbool false)] 5).2.2⟩

end StudyMood
